import Mathlib

/-!
Shallow embedding of the VISCA-over-IP command/response engine of
`src/protocols/camera_protocol.py` (classes `VISCADatagramProtocol`,
`CommandTracker`, `VISCAProtocol`, `CGIProtocol`), together with proofs of
the specification claims about it.

Bytes are modelled as `List Nat`; every byte produced by the Python code is
`< 256` (Python `bytes`), and the masks appearing in the code are translated
literally, so no global bound is needed.
-/

namespace CameraProtocol

/-- A byte string (Python `bytes`). -/
abbrev Bytes := List Nat

/-! ## Command tracker (`CommandTracker`, camera_protocol.py lines 334-387)

An `asyncio.Future` is pending, resolved (`set_result`) or cancelled;
`done()` is true in the last two cases. -/

/-- State of an `asyncio.Future` as used by `CommandTracker`. -/
inductive FState where
  | pending
  | resolved
  | cancelled
deriving DecidableEq, Repr

/-- `Future.done()`: resolved or cancelled. -/
def FState.done : FState → Bool
  | .pending => false
  | _ => true

/-- `CommandTracker.__init__`: `completion_future` exists only when
`expect_completion` is true (modelled as an `Option`). -/
structure CommandTracker where
  sequence_number : Nat
  expect_completion : Bool
  ack_state : FState
  completion_state : Option FState
  ack_payload : Option Bytes
  completion_payload : Option Bytes
deriving DecidableEq, Repr

/-- `CommandTracker(sequence_number, expect_completion)`. -/
def mkTracker (seq : Nat) (expect : Bool) : CommandTracker :=
  { sequence_number := seq
    expect_completion := expect
    ack_state := .pending
    completion_state := if expect then some .pending else none
    ack_payload := none
    completion_payload := none }

/-- `CommandTracker._is_completion`: second byte masked with `0xF0` is
`0x50` or `0x60`, first byte is the device reply header `0x90`. -/
def isCompletionPayload (payload : Bytes) : Bool :=
  match payload with
  | b0 :: b1 :: _ =>
      b0 = 0x90 && ((b1 &&& 0xF0) = 0x50 || (b1 &&& 0xF0) = 0x60)
  | _ => false

/-- `CommandTracker.handle_response`. -/
def handleResponse (t : CommandTracker) (payload : Bytes) : CommandTracker :=
  let t :=
    if t.ack_state.done then t
    else { t with ack_payload := some payload, ack_state := .resolved }
  if t.expect_completion then
    match t.completion_state with
    | some .pending =>
        if isCompletionPayload payload then
          { t with completion_payload := some payload,
                   completion_state := some .resolved }
        else t
    | _ => t
  else t

/-- `CommandTracker.is_complete`. -/
def isComplete (t : CommandTracker) : Bool :=
  if !t.expect_completion then
    t.ack_state.done && t.ack_state ≠ .cancelled
  else
    t.ack_state.done && t.ack_state ≠ .cancelled &&
      (match t.completion_state with
       | some c => c.done && c ≠ .cancelled
       | none => false)

/-- `CommandTracker.cancel`: cancel any future that is not yet done. -/
def cancelTracker (t : CommandTracker) : CommandTracker :=
  let t :=
    if t.ack_state.done then t else { t with ack_state := .cancelled }
  match t.completion_state with
  | some c => if c.done then t else { t with completion_state := some .cancelled }
  | none => t

/-! ## Packet codec -/

/-- Does a byte string end with the `0xFF` terminator
(Python `command.endswith(b'\xFF')`)? -/
def endsWithFF (bs : Bytes) : Bool := bs.getLast? = some 0xFF

/-- Python `value & 0xFF` on an arbitrary `int` (two's-complement mask). -/
def maskByte (v : Int) : Nat := (v.emod 256).toNat

/-- Python `(value >> 4) & 0x0F` (arithmetic shift, then mask). -/
def highNibble (v : Int) : Nat := ((v.fdiv 16).emod 16).toNat

/-- Python `value & 0x0F`. -/
def lowNibble (v : Int) : Nat := (v.emod 16).toNat

/-- The explicit clamp of the single-byte branch of `_create_visca_packet`:
negative values become 0, values above 15 become 15. -/
def clampVal (v : Int) : Nat :=
  (if v < 0 then 0 else if v > 15 then 15 else v).toNat

/-- `VISCAProtocol._create_visca_packet` (lines 605-648): strip an existing
`0xFF` terminator, append the value using the three-way length-dependent
encoding, re-append the terminator if the result does not already end in
`0xFF`. -/
def createViscaPacket (command : Bytes) (value : Option Int) : Bytes :=
  match value with
  | none =>
      if endsWithFF command then command else command ++ [0xFF]
  | some v =>
      let packet := if endsWithFF command then command.dropLast else command
      let packet :=
        if packet.length = 7 then
          packet ++ [maskByte v]
        else if packet.length = 6 then
          packet ++ [highNibble v, lowNibble v]
        else
          packet ++ [clampVal v]
      if endsWithFF packet then packet else packet ++ [0xFF]

/-- Sequence-number update of `_build_visca_ip_packet`:
`(seq + 1) & 0xFFFFFFFF`. -/
def seqNext (s : Nat) : Nat := (s + 1) % 4294967296

/-- Big-endian 16-bit encoding (`struct.pack('>H', n)`). -/
def be16 (n : Nat) : Bytes := [n / 256 % 256, n % 256]

/-- Big-endian 32-bit encoding (`struct.pack('>I', n)`). -/
def be32 (n : Nat) : Bytes :=
  [n / 16777216 % 256, n / 65536 % 256, n / 256 % 256, n % 256]

/-- `VISCAProtocol._build_visca_ip_packet` (lines 462-490): increments the
sequence number modulo 2^32, derives the message type from the payload's
second byte, and prepends the 8-byte big-endian header.  `struct.pack('>H')`
rejects a payload length that does not fit in 16 bits, hence the `Option`.
Returns the updated sequence number together with the packet. -/
def buildViscaIpPacket (seq : Nat) (payload : Bytes) : Option (Nat × Bytes) :=
  if payload.length < 65536 then
    let seq2 := seqNext seq
    let msgType : Nat := if payload[1]? = some 0x09 then 0x0110 else 0x0100
    some (seq2, be16 msgType ++ be16 payload.length ++ be32 seq2 ++ payload)
  else none

/-- Big-endian sequence-number extraction of `datagram_received`
(`struct.unpack('>I', data[4:8])`), as an in-bounds-checked read. -/
def unpackSeqBE (data : Bytes) : Option Nat :=
  match data[4]?, data[5]?, data[6]?, data[7]? with
  | some a, some b, some c, some d => some (((a * 256 + b) * 256 + c) * 256 + d)
  | _, _, _, _ => none

/-- Header stripping and sequence extraction as performed by
`VISCADatagramProtocol.datagram_received` (lines 286-296): only datagrams
strictly longer than the 8-byte header are decoded. -/
def decodeDatagram (data : Bytes) : Option (Nat × Bytes) :=
  if data.length > 8 then (unpackSeqBE data).map (fun s => (s, data.drop 8))
  else none

/-! ## Reply parsing (get path)

`get_camera_params` (lines 730-761) and
`get_camera_params_controlled_async` (lines 1176-1188) parse an inquiry
reply with identical conditions; the two differ only in what they record
for a reply that fails to parse. -/

/-- The shared parsing conditions of both getters: reply of length at least
3 whose first two bytes are `0x90 0x50`; a 4-byte reply yields byte 2, a
7-byte reply yields the low nibbles of bytes 2-5 assembled big-endian;
anything else fails.  The trailing byte is never inspected. -/
def parseReply (r : Bytes) : Option Nat :=
  if r.length ≥ 3 ∧ r[0]? = some 0x90 ∧ r[1]? = some 0x50 then
    if r.length = 4 then r[2]?
    else if r.length = 7 then
      match r[2]?, r[3]?, r[4]?, r[5]? with
      | some p, some q, some rr, some s =>
          some (((p &&& 0x0F) <<< 12) ||| ((q &&& 0x0F) <<< 8) |||
                ((rr &&& 0x0F) <<< 4) ||| (s &&& 0x0F))
      | _, _, _, _ => none
    else none
  else none

/-- Entry recorded by the sync getter for one parameter: the parsed value
rendered as a string, or the string "0" on any failure (no response, or a
reply that does not parse). -/
def syncGetEntry (resp : Option Bytes) : String :=
  match resp with
  | some r =>
      match parseReply r with
      | some v => toString v
      | none => "0"
  | none => "0"

/-- `VISCAProtocol.get_camera_params` result assembly: one entry per
queried parameter, `"0"` on failure; `None` when the dictionary stayed
empty.  `replies` carries, per parameter name, the response
`_send_visca_command` produced for it. -/
def getCameraParamsSync (replies : List (String × Option Bytes)) :
    Option (List (String × String)) :=
  let d := replies.foldl (fun acc nr => acc ++ [(nr.1, syncGetEntry nr.2)]) []
  if d.isEmpty then none else some d

/-- `VISCAProtocol.get_camera_params_controlled_async` result assembly: an
entry is added only when the reply parses; a failed read leaves the
parameter absent.  `None` when the dictionary stayed empty. -/
def getCameraParamsControlled (replies : List (String × Option Bytes)) :
    Option (List (String × String)) :=
  let d := replies.foldl
    (fun acc nr =>
      match nr.2 with
      | some r =>
          match parseReply r with
          | some v => acc ++ [(nr.1, toString v)]
          | none => acc
      | none => acc) []
  if d.isEmpty then none else some d

/-! ## Synchronous set path (`set_camera_params`, lines 763-832) -/

/-- Environment of one parameter in a synchronous batch set: whether the
name has a `set` template in the command map, the result of `int(value)`
(`none` = `ValueError`), the datagram received on each of the (at most 3)
send attempts of `_send_visca_command` (`none` = socket timeout), and the
raw datagram of the follow-up completion `recvfrom` (`none` = timeout). -/
structure ParamEnv where
  name : String
  known : Bool
  value : Option Int
  sendAttempts : List (Option Bytes)
  completionDatagram : Option Bytes
deriving DecidableEq, Repr

/-- The retry loop of `VISCAProtocol._send_visca_command` (lines 669-705):
one packet is sent per attempt; a response is returned only when the
datagram is longer than the 8-byte header and the stripped payload has
length at least 3 and starts with the reply header `0x90`; otherwise the
next attempt runs, and exhausting the attempts yields `None`.  Returns the
response and the number of packets sent. -/
def sendViscaLoop : List (Option Bytes) → Option Bytes × Nat
  | [] => (none, 0)
  | env :: rest =>
      match env with
      | some datagram =>
          if datagram.length > 8 then
            let payload := datagram.drop 8
            if payload.length ≥ 3 ∧ payload[0]? = some 0x90 then
              (some payload, 1)
            else
              let r := sendViscaLoop rest
              (r.1, r.2 + 1)
          else
            let r := sendViscaLoop rest
            (r.1, r.2 + 1)
      | none =>
          let r := sendViscaLoop rest
          (r.1, r.2 + 1)

/-- `self.max_attempts` of `VISCAProtocol` (line 416). -/
def maxAttempts : Nat := 3

/-- `_send_visca_command` proper: at most `max_attempts` attempts. -/
def sendViscaCommand (attempts : List (Option Bytes)) : Option Bytes × Nat :=
  sendViscaLoop (attempts.take maxAttempts)

/-- Success of the completion phase of the sync set path (lines 802-812):
the completion datagram must be longer than 8 bytes and its stripped
payload must start `0x90` with second byte of class `0x50`; a one-byte
payload raises `IndexError` on `comp_payload[1]`, caught by the surrounding
handler, hence failure. -/
def syncCompletionOk (completion : Option Bytes) : Bool :=
  match completion with
  | some c =>
      if c.length > 8 then
        match c.drop 8 with
        | b0 :: b1 :: _ => b0 = 0x90 && (b1 &&& 0xF0) = 0x50
        | _ => false
      else false
  | none => false

/-- Per-parameter outcome of the sync set path (lines 781-826): unknown
parameters and unparsable values fail immediately; an ACK-class first reply
(`0x90 0x4z`) requires a successful completion read; a direct
completion-class first reply (`0x90 0x5z`) succeeds; anything else fails. -/
def syncParamSuccess (p : ParamEnv) : Bool :=
  if !p.known then false
  else
    match p.value with
    | none => false
    | some _ =>
        match (sendViscaCommand p.sendAttempts).1 with
        | none => false
        | some r =>
            if r.length ≥ 3 then
              if r[0]? = some 0x90 ∧ (r[1]?.getD 0 &&& 0xF0) = 0x40 then
                syncCompletionOk p.completionDatagram
              else if r[0]? = some 0x90 ∧ (r[1]?.getD 0 &&& 0xF0) = 0x50 then
                true
              else false
            else false

/-- Packets sent on behalf of one parameter of a sync batch set: none when
the parameter is rejected before sending, otherwise those of the send
loop. -/
def syncParamPacketsSent (p : ParamEnv) : Nat :=
  if !p.known then 0
  else
    match p.value with
    | none => 0
    | some _ => (sendViscaCommand p.sendAttempts).2

/-- The `success_count` and packet tally accumulated by the parameter loop
of `set_camera_params`. -/
def syncStats (params : List ParamEnv) : Nat × Nat :=
  params.foldl
    (fun (acc : Nat × Nat) p =>
      (acc.1 + (if syncParamSuccess p then 1 else 0),
       acc.2 + syncParamPacketsSent p)) (0, 0)

/-- `VISCAProtocol.set_camera_params` (lines 763-832): an empty batch
returns `True` immediately; otherwise the per-parameter successes are
counted and the batch reports success iff the count is positive.  Returns
the overall result and the number of packets sent. -/
def setCameraParams (params : List ParamEnv) : Bool × Nat :=
  if params.isEmpty then (true, 0)
  else (decide ((syncStats params).1 > 0), (syncStats params).2)

/-! ## Controlled batch set
(`set_camera_params_controlled_async`, lines 1069-1123,
`_set_single_param_controlled_async`, lines 1125-1133,
`_retry_sequential`, lines 1135-1150)

The relevant behaviour is recorded as a trace of events.  The concurrent
phase runs its per-parameter tasks under `asyncio.gather`; a real run
interleaves the per-task segments, but each task's internal order, the
event counts, and the position of the batch-level token acquisition before
any task are interleaving-invariant, so the trace below concatenates the
per-task segments in dispatch order as a canonical representative. -/

/-- The configured pacing delays of `VISCAProtocol.__init__`
(`concurrent_pacing`, `sequential_pacing`, `retry_delay_pacing`). -/
inductive Delay where
  | concurrentPacing
  | sequentialPacing
  | retryDelay
deriving DecidableEq, Repr

/-- Observable events of a controlled batch set. -/
inductive Ev where
  | tokenAcquire
  | slotAcquire
  | slotRelease
  | sleep (d : Delay)
  | execConc (name : String)
  | execRetry (name : String)
deriving DecidableEq, Repr

/-- Configuration bits read by the controlled set path. -/
structure CtrlConfig where
  rateLimitSet : Bool
  fallbackToSequential : Bool
deriving DecidableEq, Repr

/-- Mutable controller state (`current_concurrency_limit`,
`success_count`, `failure_count`). -/
structure CtrlState where
  currentLimit : Nat
  successCount : Nat
  failureCount : Nat
deriving DecidableEq, Repr

/-- One parameter of a controlled batch: whether its name has a `set`
template, the outcome of its concurrent-phase task, and the outcome it
would have if retried sequentially. -/
structure CtrlParam where
  name : String
  known : Bool
  firstOutcome : Bool
  retryOutcome : Bool
deriving DecidableEq, Repr

/-- Trace of `_set_single_param_controlled_async` for one parameter:
acquire a semaphore slot, pace when the current limit allows concurrency,
run the send, release the slot on exit. -/
def opSegment (limit : Nat) (name : String) : List Ev :=
  [Ev.slotAcquire] ++
    (if limit > 1 then [Ev.sleep .concurrentPacing] else []) ++
    [Ev.execConc name, Ev.slotRelease]

/-- `VISCAProtocol._retry_sequential`: for each failed parameter, sleep the
sequential pacing, re-issue it, and after a failure additionally sleep the
retry delay; returns the trace and the number of sequential successes. -/
def retrySequential (ps : List CtrlParam) : List Ev × Nat :=
  ps.foldl
    (fun (acc : List Ev × Nat) p =>
      let tr := acc.1 ++ [Ev.sleep .sequentialPacing, Ev.execRetry p.name]
      if p.retryOutcome then (tr, acc.2 + 1)
      else (tr ++ [Ev.sleep .retryDelay], acc.2))
    ([], 0)

/-- The `tasks` of the controlled batch: only parameters with a `set`
template in the command map get a task (line 1084). -/
def ctrlTasks (params : List CtrlParam) : List CtrlParam :=
  params.filter (fun p => p.known)

/-- The batch's `success_count` after the concurrent phase (line 1097). -/
def ctrlSuccess1 (params : List CtrlParam) : Nat :=
  ((ctrlTasks params).filter (fun p => p.firstOutcome)).length

/-- The batch's `failure_count` after the concurrent phase (line 1098). -/
def ctrlFailure1 (params : List CtrlParam) : Nat :=
  (ctrlTasks params).length - ctrlSuccess1 params

/-- The batch's `failed_params`, in dispatch order (lines 1115-1116). -/
def ctrlFailed (params : List CtrlParam) : List CtrlParam :=
  (ctrlTasks params).filter (fun p => !p.firstOutcome)

/-- The batch-level rate-limiter acquisition (lines 1078-1079). -/
def ctrlPre (cfg : CtrlConfig) : List Ev :=
  if cfg.rateLimitSet then [Ev.tokenAcquire] else []

/-- Concurrent-phase trace: the per-task segments in dispatch order (a
canonical representative of the `asyncio.gather` interleavings). -/
def ctrlConcTrace (st : CtrlState) (params : List CtrlParam) : List Ev :=
  ((ctrlTasks params).map (fun p => opSegment st.currentLimit p.name)).flatten

/-- The sequential-fallback guard of lines 1106-1108:
`fallback_to_sequential` is configured, the batch failure ratio exceeds
0.5 (on these integer counts, float `failure_count / total > 0.5` is
exactly `2 * failure_count > total`), and the current limit exceeds 1. -/
def ctrlRetryHappens (cfg : CtrlConfig) (st : CtrlState)
    (params : List CtrlParam) : Bool :=
  cfg.fallbackToSequential &&
    decide (2 * ctrlFailure1 params > params.length) &&
    decide (st.currentLimit > 1)

/-- `VISCAProtocol.set_camera_params_controlled_async`: empty batches
return `True` at once; otherwise one rate-limiter token is taken for the
whole batch (when set-rate-limiting is on), tasks are dispatched for the
known parameters only (`False` when there are none), successes and
failures are accumulated onto the session counters, and when the fallback
guard fires the limit is halved (floor 1) and the failed parameters are
retried sequentially, their successes added to the batch's count.  Returns
the overall result, the updated controller state and the event trace. -/
def setCameraParamsControlled (cfg : CtrlConfig) (st : CtrlState)
    (params : List CtrlParam) : Bool × CtrlState × List Ev :=
  if params.isEmpty then (true, st, [])
  else if (ctrlTasks params).isEmpty then (false, st, ctrlPre cfg)
  else if ctrlRetryHappens cfg st params then
    (decide (ctrlSuccess1 params + (retrySequential (ctrlFailed params)).2 > 0),
     { currentLimit := max 1 (st.currentLimit / 2),
       successCount := st.successCount + ctrlSuccess1 params,
       failureCount := st.failureCount + ctrlFailure1 params },
     ctrlPre cfg ++ ctrlConcTrace st params ++
       (retrySequential (ctrlFailed params)).1)
  else
    (decide (ctrlSuccess1 params > 0),
     { currentLimit := st.currentLimit,
       successCount := st.successCount + ctrlSuccess1 params,
       failureCount := st.failureCount + ctrlFailure1 params },
     ctrlPre cfg ++ ctrlConcTrace st params)

/-! ## CGI batch set (`CGIProtocol.set_camera_params`, lines 147-187, and
`set_camera_params_async`, lines 233-272; both share the same structure) -/

/-- Attempt loop of the CGI set: one HTTP request per attempt, success on
status 200 (`none` models a request exception).  Returns the result and
the number of requests issued. -/
def cgiSetAttempts : List (Option Nat) → Bool × Nat
  | [] => (false, 0)
  | r :: rest =>
      if r = some 200 then (true, 1)
      else
        let acc := cgiSetAttempts rest
        (acc.1, acc.2 + 1)

/-- `CGIProtocol.set_camera_params` (sync and async have identical
shape): an empty parameter map returns `True` before any request is made;
otherwise up to `max_attempts` requests are issued. -/
def cgiSetCameraParams (paramCount : Nat) (cgiMaxAttempts : Nat)
    (attempts : List (Option Nat)) : Bool × Nat :=
  if paramCount = 0 then (true, 0)
  else cgiSetAttempts (attempts.take cgiMaxAttempts)

/-! ## Session state, datagram routing and teardown -/

/-- The pending-tracker table `command_futures` (sequence number to
tracker). -/
abbrev Table := List (Nat × CommandTracker)

/-- Dictionary lookup `command_futures.get(seq)`. -/
def tableGet (tbl : Table) (seq : Nat) : Option CommandTracker :=
  (tbl.find? (fun e => e.1 = seq)).map (·.2)

/-- In-place update of the tracker stored under `seq` (the Python object
is mutated through the table's reference). -/
def tableSet (tbl : Table) (seq : Nat) (t : CommandTracker) : Table :=
  tbl.map (fun e => if e.1 = seq then (seq, t) else e)

/-- `command_futures.pop(seq, None)`. -/
def tableRemove (tbl : Table) (seq : Nat) : Table :=
  tbl.filter (fun e => e.1 ≠ seq)

/-- `VISCADatagramProtocol.datagram_received` (lines 286-296): datagrams of
8 bytes or fewer are ignored; otherwise the sequence number is read from
header bytes 4-7, the matching tracker (if any) handles the stripped
payload, and a tracker that became complete is removed from the table. -/
def datagramReceived (tbl : Table) (data : Bytes) : Table :=
  match decodeDatagram data with
  | none => tbl
  | some (seq, payload) =>
      match tableGet tbl seq with
      | none => tbl
      | some t =>
          let t2 := handleResponse t payload
          let tbl2 := tableSet tbl seq t2
          if isComplete t2 then tableRemove tbl2 seq else tbl2

/-- The session state touched by `disconnect_async` and
`_clear_pending_sequences`. -/
structure SessionState where
  connected : Bool
  transportOpen : Bool
  commandFutures : Table
deriving DecidableEq, Repr

/-- `VISCAProtocol._clear_pending_sequences` (lines 492-496): cancel every
pending tracker, then clear the table.  Returns the cancelled trackers
together with the new state. -/
def clearPendingSequences (s : SessionState) :
    SessionState × List CommandTracker :=
  ({ s with commandFutures := [] },
   s.commandFutures.map (fun e => cancelTracker e.2))

/-- `VISCAProtocol.disconnect_async` (lines 588-599): closes the transport
and marks the session disconnected; the `command_futures` table is not
touched.  Returns the new state and the reported result. -/
def disconnectAsync (s : SessionState) : SessionState × Bool :=
  ({ s with transportOpen := false, connected := false }, true)

/-! ## Derived observations used by the theorems -/

/-- The name re-issued by a sequential-retry event, if any. -/
def retryNameOf : Ev → Option String
  | .execRetry n => some n
  | _ => none

/-- Number of rate-limiter tokens consumed along a trace. -/
def countTokenAcquires (tr : List Ev) : Nat :=
  tr.countP (fun e => e = Ev.tokenAcquire)

/-- Number of concurrent-phase parameter executions along a trace. -/
def countConcExecs (tr : List Ev) : Nat :=
  tr.countP (fun e => match e with | .execConc _ => true | _ => false)

/-- Was parameter `p` of a controlled batch set successfully, either by its
concurrent-phase task or by the sequential retry pass? -/
def ctrlParamSucceeded (cfg : CtrlConfig) (st : CtrlState)
    (params : List CtrlParam) (p : CtrlParam) : Bool :=
  p.known && (p.firstOutcome ||
    (ctrlRetryHappens cfg st params && !p.firstOutcome && p.retryOutcome))

/-! # Claims -/

/-- C9: a batch set called with an empty parameter map returns `True`
immediately and sends nothing: the sync VISCA path sends no packet, the
controlled async VISCA path produces an empty trace (no token, no send),
and the CGI path (sync and async share the shape) issues no request. -/
theorem empty_batch_set_trivially_succeeds :
    setCameraParams [] = (true, 0) ∧
    (∀ (cfg : CtrlConfig) (st : CtrlState),
        setCameraParamsControlled cfg st [] = (true, st, [])) ∧
    (∀ (n : Nat) (attempts : List (Option Nat)),
        cgiSetCameraParams 0 n attempts = (true, 0)) := by
  refine ⟨rfl, fun cfg st => rfl, fun n attempts => rfl⟩

/-- C10: the receive path dispatches a datagram only when it is strictly
longer than the 8-byte header; any datagram of 8 bytes or fewer leaves the
tracker table untouched, and under the guard the header read (bytes 4-7)
and the payload slice (bytes 8 onward) are in bounds, the payload being
non-empty. -/
theorem datagram_guard_drops_short_and_bounds :
    (∀ (tbl : Table) (data : Bytes), data.length ≤ 8 →
        datagramReceived tbl data = tbl) ∧
    (∀ data : Bytes, data.length > 8 →
        (unpackSeqBE data).isSome ∧
        (data.drop 8).length = data.length - 8 ∧
        0 < (data.drop 8).length) := by
  constructor
  · intro tbl data h
    have hdec : decodeDatagram data = none := by
      simp [decodeDatagram]
      omega
    simp [datagramReceived, hdec]
  · intro data h
    have h4 : data[4]? = some data[4] := List.getElem?_eq_getElem (by omega)
    have h5 : data[5]? = some data[5] := List.getElem?_eq_getElem (by omega)
    have h6 : data[6]? = some data[6] := List.getElem?_eq_getElem (by omega)
    have h7 : data[7]? = some data[7] := List.getElem?_eq_getElem (by omega)
    refine ⟨?_, ?_, ?_⟩
    · simp [unpackSeqBE, h4, h5, h6, h7]
    · simp [List.length_drop]
    · simp [List.length_drop]; omega

/-- C10 witness. -/
theorem datagram_guard_drops_short_and_bounds_witness :
    datagramReceived [(1, mkTracker 1 true)] [0, 0, 0, 0, 0, 0, 0, 1]
        = [(1, mkTracker 1 true)] ∧
    (unpackSeqBE [1, 1, 0, 5, 0, 0, 0, 9, 0x90]).isSome := by
  exact ⟨datagram_guard_drops_short_and_bounds.1 [(1, mkTracker 1 true)]
      [0, 0, 0, 0, 0, 0, 0, 1] (by decide),
    (datagram_guard_drops_short_and_bounds.2 [1, 1, 0, 5, 0, 0, 0, 9, 0x90]
      (by decide)).1⟩

/-- C4 counterexample: a session holding one outstanding tracker still
holds it, uncancelled, after `disconnect_async`; the claim that disconnect
cancels every outstanding tracker and empties the table is false. -/
theorem disconnect_leaves_trackers_counterexample :
    (disconnectAsync ⟨true, true, [(1, mkTracker 1 true)]⟩).1.commandFutures
        = [(1, mkTracker 1 true)] ∧
    ([(1, mkTracker 1 true)] : Table) ≠ [] ∧
    (mkTracker 1 true).ack_state = FState.pending := by
  refine ⟨rfl, by decide, rfl⟩

/-- C4 (amended): `disconnect_async` closes the channel and marks the
session disconnected but does not cancel or remove outstanding trackers —
the table is left exactly as it was; trackers are cancelled and the table
emptied only by `_clear_pending_sequences` (invoked by the get paths, not
by disconnect). -/
theorem disconnect_behaviour (s : SessionState) :
    (disconnectAsync s).1.commandFutures = s.commandFutures ∧
    (disconnectAsync s).1.connected = false ∧
    (disconnectAsync s).1.transportOpen = false ∧
    (disconnectAsync s).2 = true ∧
    (clearPendingSequences s).1.commandFutures = [] := by
  exact ⟨rfl, rfl, rfl, rfl, rfl⟩

/-! ## Tracker state-machine lemmas -/

theorem handleResponse_expect (t : CommandTracker) (p : Bytes) :
    (handleResponse t p).expect_completion = t.expect_completion := by
  cases hp : isCompletionPayload p <;>
    rcases t with ⟨sn, exp, ack, comp, ap, cp⟩ <;>
      cases ack <;> cases exp <;>
        rcases comp with _ | c <;> try cases c
  all_goals simp [handleResponse, FState.done, hp]

theorem handleResponse_ack_state (t : CommandTracker) (p : Bytes) :
    (handleResponse t p).ack_state
      = if t.ack_state.done then t.ack_state else FState.resolved := by
  cases hp : isCompletionPayload p <;>
    rcases t with ⟨sn, exp, ack, comp, ap, cp⟩ <;>
      cases ack <;> cases exp <;>
        rcases comp with _ | c <;> try cases c
  all_goals simp [handleResponse, FState.done, hp]

theorem handleResponse_completion_state (t : CommandTracker) (p : Bytes) :
    (handleResponse t p).completion_state
      = if t.expect_completion = true ∧ t.completion_state = some FState.pending ∧
            isCompletionPayload p = true
        then some FState.resolved else t.completion_state := by
  cases hp : isCompletionPayload p <;>
    rcases t with ⟨sn, exp, ack, comp, ap, cp⟩ <;>
      cases ack <;> cases exp <;>
        rcases comp with _ | c <;> try cases c
  all_goals simp [handleResponse, FState.done, hp]

theorem foldl_handleResponse_expect (rs : List Bytes) :
    ∀ t : CommandTracker,
      (rs.foldl handleResponse t).expect_completion = t.expect_completion := by
  induction rs with
  | nil => intro t; rfl
  | cons r rs ih =>
      intro t
      rw [List.foldl_cons, ih, handleResponse_expect]

theorem foldl_handleResponse_ack_resolved (rs : List Bytes) :
    ∀ t : CommandTracker, t.ack_state = FState.resolved →
      (rs.foldl handleResponse t).ack_state = FState.resolved := by
  induction rs with
  | nil => intro t h; exact h
  | cons r rs ih =>
      intro t h
      rw [List.foldl_cons]
      apply ih
      rw [handleResponse_ack_state, h]
      rfl

theorem foldl_handleResponse_ack_of_pending (rs : List Bytes)
    (t : CommandTracker) (h : t.ack_state = FState.pending) :
    ((rs.foldl handleResponse t).ack_state = FState.resolved ↔ rs ≠ []) := by
  cases rs with
  | nil => simp [h]
  | cons r rs =>
      simp only [List.foldl_cons]
      constructor
      · intro _; simp
      · intro _
        apply foldl_handleResponse_ack_resolved
        rw [handleResponse_ack_state, h]
        rfl

theorem foldl_handleResponse_completion (rs : List Bytes) :
    ∀ t : CommandTracker, t.expect_completion = true →
      ((rs.foldl handleResponse t).completion_state = some FState.resolved ↔
        (t.completion_state = some FState.resolved ∨
          (t.completion_state = some FState.pending ∧
            ∃ r ∈ rs, isCompletionPayload r = true))) := by
  induction rs with
  | nil => intro t he; simp
  | cons r rs ih =>
      intro t he
      rw [List.foldl_cons,
        ih _ (by rw [handleResponse_expect]; exact he),
        handleResponse_completion_state]
      by_cases hc : t.completion_state = some FState.pending
      · by_cases hpr : isCompletionPayload r = true
        · simp [he, hc, hpr]
        · rw [if_neg (by simp [hpr])]
          simp only [hc, Option.some.injEq, reduceCtorEq, false_or, true_and,
            List.exists_mem_cons_iff]
          rw [iff_iff_eq]
          simp [hpr]
      · rw [if_neg (by simp [hc])]
        simp [hc]

theorem isComplete_of_expect (t : CommandTracker)
    (he : t.expect_completion = true) :
    (isComplete t = true ↔
      (t.ack_state = FState.resolved ∧
        t.completion_state = some FState.resolved)) := by
  rcases t with ⟨sn, exp, ack, comp, ap, cp⟩
  cases ack <;> cases exp <;> rcases comp with _ | c <;> try cases c
  all_goals simp_all [isComplete, FState.done]

/-- C1: for a tracker created with `expect_completion = true`: an ACK-class
reply (`0x90`, second byte masked `0xF0` equal to `0x40`) leaves the
tracker incomplete; after any sequence of handled replies the tracker is
complete exactly when some completion-class reply (in the sense of
`_is_completion`: header `0x90`, second byte class `0x50` or `0x60`) was
handled; and a completion-class first reply resolves both the ACK and the
completion phase at once. -/
theorem tracker_two_phase_handshake :
    (∀ (seq b1 : Nat) (rest : Bytes), (b1 &&& 0xF0) = 0x40 →
        isComplete (handleResponse (mkTracker seq true) (0x90 :: b1 :: rest))
          = false) ∧
    (∀ (seq : Nat) (rs : List Bytes),
        isComplete (rs.foldl handleResponse (mkTracker seq true)) = true ↔
          ∃ r ∈ rs, isCompletionPayload r = true) ∧
    (∀ (seq : Nat) (p : Bytes), isCompletionPayload p = true →
        (handleResponse (mkTracker seq true) p).ack_state = FState.resolved ∧
        (handleResponse (mkTracker seq true) p).completion_state
            = some FState.resolved ∧
        isComplete (handleResponse (mkTracker seq true) p) = true) := by
  refine ⟨?_, ?_, ?_⟩
  · intro seq b1 rest hb
    have hnc : isCompletionPayload (0x90 :: b1 :: rest) = false := by
      simp [isCompletionPayload, hb]
    have h1 : (handleResponse (mkTracker seq true) (0x90 :: b1 :: rest)).completion_state
        = some FState.pending := by
      rw [handleResponse_completion_state]
      simp [hnc, mkTracker]
    have h2 := isComplete_of_expect
      (handleResponse (mkTracker seq true) (0x90 :: b1 :: rest))
      (by rw [handleResponse_expect]; rfl)
    rw [Bool.eq_false_iff]
    intro hcontra
    rcases h2.mp hcontra with ⟨_, hc2⟩
    rw [h1] at hc2
    exact absurd (Option.some.inj hc2) (by decide)
  · intro seq rs
    rw [isComplete_of_expect _ (by rw [foldl_handleResponse_expect]; rfl),
      foldl_handleResponse_completion rs _ rfl,
      foldl_handleResponse_ack_of_pending rs _ rfl]
    have hmk : (mkTracker seq true).completion_state = some FState.pending := rfl
    rw [hmk]
    simp only [reduceCtorEq, Option.some.injEq, false_or]
    constructor
    · rintro ⟨_, _, h⟩; exact h
    · rintro ⟨r, hr, h⟩
      refine ⟨?_, by decide, ⟨r, hr, h⟩⟩
      rintro rfl
      exact absurd hr (List.not_mem_nil r)
  · intro seq p hp
    have ha : (handleResponse (mkTracker seq true) p).ack_state = FState.resolved := by
      rw [handleResponse_ack_state]
      rfl
    have hc : (handleResponse (mkTracker seq true) p).completion_state
        = some FState.resolved := by
      rw [handleResponse_completion_state]
      simp [hp, mkTracker]
    refine ⟨ha, hc, ?_⟩
    rw [isComplete_of_expect _ (by rw [handleResponse_expect]; rfl)]
    exact ⟨ha, hc⟩

/-- C1 witness. -/
theorem tracker_two_phase_handshake_witness :
    isComplete (handleResponse (mkTracker 2 true) [0x90, 0x41, 0xFF]) = false ∧
    (handleResponse (mkTracker 3 true) [0x90, 0x51, 0xFF]).completion_state
        = some FState.resolved := by
  exact ⟨tracker_two_phase_handshake.1 2 0x41 [0xFF] (by decide),
    (tracker_two_phase_handshake.2.2 3 [0x90, 0x51, 0xFF] (by decide)).2.1⟩

/-! ## Value-encoding theorems (`_create_visca_packet`) -/

theorem lowNibble_lt (v : Int) : lowNibble v < 16 := by
  have h1 : 0 ≤ v.emod 16 := Int.emod_nonneg v (by norm_num)
  have h2 : v.emod 16 < 16 := Int.emod_lt_of_pos v (by norm_num)
  unfold lowNibble
  omega

theorem clampVal_le (v : Int) : clampVal v ≤ 15 := by
  unfold clampVal
  split
  · simp
  · split
    · simp
    · omega

/-- Closed form of `_create_visca_packet` on a set template (one not
already carrying the `0xFF` terminator) and a value. -/
theorem createViscaPacket_closed_form (template : Bytes) (v : Int)
    (hT : endsWithFF template = false) :
    createViscaPacket template (some v) =
      if template.length = 7 then
        (if maskByte v = 0xFF then template ++ [0xFF]
         else template ++ [maskByte v, 0xFF])
      else if template.length = 6 then
        template ++ [highNibble v, lowNibble v, 0xFF]
      else template ++ [clampVal v, 0xFF] := by
  unfold createViscaPacket
  simp only [hT, Bool.false_eq_true, if_false]
  by_cases h7 : template.length = 7
  · simp only [h7, if_true]
    by_cases hm : maskByte v = 0xFF
    · simp [hm, endsWithFF]
    · simp [hm, endsWithFF]
  · by_cases h6 : template.length = 6
    · have hlow := lowNibble_lt v
      simp only [h7, h6, if_false, if_true]
      have : endsWithFF (template ++ [highNibble v, lowNibble v]) = false := by
        simp [endsWithFF]
        omega
      simp [this]
    · have hcl := clampVal_le v
      simp only [h7, h6, if_false]
      have : endsWithFF (template ++ [clampVal v]) = false := by
        simp [endsWithFF]
        omega
      simp [this]

/-- C6 counterexample: for the 7-byte `ExposureGain` set template and value
255 the value byte `value & 0xFF = 0xFF` itself passes for the terminator,
so the built payload is the template plus a single `0xFF` — not the
claimed template plus value byte plus a separate terminator. -/
theorem set_payload_encoding_counterexample :
    createViscaPacket [0x81, 0x01, 0x04, 0x4C, 0x00, 0x00, 0x00] (some 255)
        = [0x81, 0x01, 0x04, 0x4C, 0x00, 0x00, 0x00, 0xFF] ∧
    createViscaPacket [0x81, 0x01, 0x04, 0x4C, 0x00, 0x00, 0x00] (some 255)
        ≠ [0x81, 0x01, 0x04, 0x4C, 0x00, 0x00, 0x00, 0xFF, 0xFF] := by
  constructor
  · rfl
  · decide

/-- C6 (amended): for a set template (given, as all the command map's set
templates are, without a trailing `0xFF`), the three-way length-dependent
encoding holds - a 7-byte template takes one trailing byte `value & 0xFF`
followed by the terminator provided that byte is not itself `0xFF` (the
camera family's documented domain is 0-14; for a masked value of `0xFF`
the value byte doubles as the terminator and no further byte is added); a
6-byte template takes the high then low nibble of the value and the
terminator; any other template takes a single byte clamped to 0..15 and
the terminator; and the result always ends with exactly one `0xFF`. -/
theorem set_payload_encoding (template : Bytes) (v : Int)
    (hT : template.getLast? ≠ some 0xFF) :
    (template.length = 7 → maskByte v ≠ 0xFF →
        createViscaPacket template (some v)
          = template ++ [maskByte v, 0xFF]) ∧
    (template.length = 7 → maskByte v = 0xFF →
        createViscaPacket template (some v) = template ++ [0xFF]) ∧
    (template.length = 6 →
        createViscaPacket template (some v)
          = template ++ [highNibble v, lowNibble v, 0xFF]) ∧
    (template.length ≠ 7 → template.length ≠ 6 →
        createViscaPacket template (some v)
          = template ++ [clampVal v, 0xFF] ∧ clampVal v ≤ 15) ∧
    ((createViscaPacket template (some v)).getLast? = some 0xFF ∧
      (createViscaPacket template (some v)).dropLast.getLast? ≠ some 0xFF) := by
  have hTff : endsWithFF template = false := by
    simp [endsWithFF]
    intro h
    exact absurd h hT
  rw [createViscaPacket_closed_form template v hTff]
  refine ⟨?_, ?_, ?_, ?_, ?_⟩
  · intro h7 hmv
    rw [if_pos h7, if_neg hmv]
  · intro h7 hmv
    rw [if_pos h7, if_pos hmv]
  · intro h6
    rw [if_neg (by omega), if_pos h6]
  · intro h7 h6
    rw [if_neg h7, if_neg h6]
    exact ⟨rfl, clampVal_le v⟩
  · have hlow := lowNibble_lt v
    have hcl := clampVal_le v
    split
    · split
      · constructor
        · simp
        · simpa using hT
      · constructor
        · have : template ++ [maskByte v, 0xFF]
              = (template ++ [maskByte v]) ++ [0xFF] := by simp
          rw [this]
          simp
        · have : template ++ [maskByte v, 0xFF]
              = (template ++ [maskByte v]) ++ [0xFF] := by simp
          rw [this, List.dropLast_concat]
          simp
          intro hx
          simp_all
    · split
      · constructor
        · simp
        · have : template ++ [highNibble v, lowNibble v, 0xFF]
              = (template ++ [highNibble v, lowNibble v]) ++ [0xFF] := by simp
          rw [this, List.dropLast_concat]
          simp
          omega
      · constructor
        · simp
        · have : template ++ [clampVal v, 0xFF]
              = (template ++ [clampVal v]) ++ [0xFF] := by simp
          rw [this, List.dropLast_concat]
          simp
          omega

/-- C6 witness. -/
theorem set_payload_encoding_witness :
    createViscaPacket [0x81, 0x01, 0x04, 0x4C, 0x00, 0x00, 0x00] (some 9)
        = [0x81, 0x01, 0x04, 0x4C, 0x00, 0x00, 0x00, 0x09, 0xFF] ∧
    createViscaPacket [0x81, 0x01, 0x04, 0x4C, 0x00, 0x00] (some 37)
        = [0x81, 0x01, 0x04, 0x4C, 0x00, 0x00, 0x02, 0x05, 0xFF] ∧
    createViscaPacket [0x81, 0x01, 0x04, 0x3E] (some 20)
        = [0x81, 0x01, 0x04, 0x3E, 0x0F, 0xFF] := by
  refine ⟨?_, ?_, ?_⟩
  · exact (set_payload_encoding [0x81, 0x01, 0x04, 0x4C, 0x00, 0x00, 0x00] 9
      (by decide)).1 (by decide) (by decide)
  · exact (set_payload_encoding [0x81, 0x01, 0x04, 0x4C, 0x00, 0x00] 37
      (by decide)).2.2.1 (by decide)
  · exact ((set_payload_encoding [0x81, 0x01, 0x04, 0x3E] 20
      (by decide)).2.2.2.1 (by decide) (by decide)).1

/-! ## Packet round-trip and sequence numbering -/

theorem seqNext_lt (s : Nat) : seqNext s < 4294967296 := by
  unfold seqNext
  omega

theorem seqNext_iterate (n : Nat) :
    ∀ s : Nat, s < 4294967296 →
      seqNext^[n] s = (s + n) % 4294967296 := by
  induction n with
  | zero => intro s hs; simp [Nat.mod_eq_of_lt hs]
  | succ n ih =>
      intro s hs
      rw [Function.iterate_succ_apply, ih _ (seqNext_lt s)]
      unfold seqNext
      omega

/-- C7: encoding a non-empty VISCA payload (its length fitting the 16-bit
header field, as every payload this program builds does) and decoding the
resulting datagram reproduces the payload exactly and yields the sequence
number `(previous + 1) mod 2^32`; and any two encodes fewer than `2^32`
steps apart carry distinct sequence numbers. -/
theorem packet_roundtrip_and_sequence_uniqueness :
    (∀ (seq : Nat) (payload : Bytes), payload ≠ [] → payload.length < 65536 →
        ∃ pkt, buildViscaIpPacket seq payload = some (seqNext seq, pkt) ∧
          decodeDatagram pkt = some (seqNext seq, payload) ∧
          seqNext seq = (seq + 1) % 4294967296) ∧
    (∀ (s i j : Nat), s < 4294967296 → i < j → j - i < 4294967296 →
        seqNext^[i] s ≠ seqNext^[j] s) := by
  constructor
  · intro seq payload hne hlen
    refine ⟨be16 (if payload[1]? = some 0x09 then 0x0110 else 0x0100) ++
      be16 payload.length ++ be32 (seqNext seq) ++ payload, ?_, ?_, rfl⟩
    · unfold buildViscaIpPacket
      rw [if_pos hlen]
    · have hs := seqNext_lt seq
      unfold decodeDatagram unpackSeqBE be16 be32
      simp only [List.cons_append, List.nil_append]
      rw [if_pos (by
        have hpos := List.length_pos.mpr hne
        simp only [List.length_cons]
        omega)]
      simp only [List.getElem?_cons_zero, List.getElem?_cons_succ,
        List.drop_succ_cons, List.drop_zero]
      simp
      omega
  · intro s i j hs hij hlt
    rw [seqNext_iterate i s hs, seqNext_iterate j s hs]
    omega

/-- C7 witness. -/
theorem packet_roundtrip_and_sequence_uniqueness_witness :
    (∃ pkt, buildViscaIpPacket 0 [0x81, 0x09, 0x04, 0x4C, 0xFF]
        = some (seqNext 0, pkt) ∧
      decodeDatagram pkt = some (seqNext 0, [0x81, 0x09, 0x04, 0x4C, 0xFF]) ∧
      seqNext 0 = (0 + 1) % 4294967296) ∧
    seqNext^[1] 0 ≠ seqNext^[2] 0 := by
  exact ⟨packet_roundtrip_and_sequence_uniqueness.1 0 [0x81, 0x09, 0x04, 0x4C, 0xFF]
      (by decide) (by decide),
    packet_roundtrip_and_sequence_uniqueness.2 0 1 2 (by decide) (by decide)
      (by decide)⟩

/-! ## Reply-parsing theorems -/

/-- C5 counterexample: the parser never inspects the trailing byte, so the
4-byte payload `90 50 07 00` — not one of the claim's two `0xFF`-terminated
shapes — is accepted with value 7; and the sync getter reports a failed
read as the present entry "0", not as an absent value. -/
theorem reply_parsing_counterexample :
    parseReply [0x90, 0x50, 0x07, 0x00] = some 7 ∧
    getCameraParamsSync [("ExposureGain", some [0x90, 0x60, 0x02, 0xFF])]
        = some [("ExposureGain", "0")] := by
  constructor
  · rfl
  · rfl

theorem foldl_append_map {α β : Type} (f : α → β) (l : List α) :
    ∀ acc : List β, l.foldl (fun a x => a ++ [f x]) acc = acc ++ l.map f := by
  induction l with
  | nil => intro acc; simp
  | cons x xs ih => intro acc; simp [ih]

theorem controlled_foldl_eq (replies : List (String × Option Bytes)) :
    ∀ acc : List (String × String),
      replies.foldl
        (fun acc nr =>
          match (nr.2.bind parseReply).map (fun v => (nr.1, toString v)) with
          | some y => acc ++ [y]
          | none => acc) acc
        = acc ++ replies.filterMap
            (fun nr => (nr.2.bind parseReply).map (fun v => (nr.1, toString v))) := by
  induction replies with
  | nil => intro acc; simp
  | cons x xs ih =>
      intro acc
      simp only [List.foldl_cons, List.filterMap_cons]
      cases hfx : (x.2.bind parseReply).map (fun v => (x.1, toString v)) with
      | none => exact ih acc
      | some y =>
          rw [show (match some y with
              | some y => acc ++ [y]
              | none => acc) = acc ++ [y] from rfl,
            ih (acc ++ [y])]
          simp

/-- C5 (amended): reply parsing accepts exactly two shapes selected by
length and the two leading bytes, with the trailing byte never checked: a
4-byte reply `0x90 0x50 v X` yields the 8-bit value `v`, and a 7-byte
reply `0x90 0x50 p q r s X` yields the 16-bit value assembled from the low
nibbles; any other length, or a first byte other than `0x90`, or a second
byte other than `0x50`, is a failed read scoped to that one parameter: the
sync getter records the entry "0" for it while the controlled async getter
omits the entry, and in both getters every other parameter of the batch is
reported independently (no fatal error). -/
theorem reply_parsing_shapes :
    (∀ v t : Nat, parseReply [0x90, 0x50, v, t] = some v) ∧
    (∀ p q r s t : Nat,
        parseReply [0x90, 0x50, p, q, r, s, t]
          = some (((p &&& 0x0F) <<< 12) ||| ((q &&& 0x0F) <<< 8) |||
                  ((r &&& 0x0F) <<< 4) ||| (s &&& 0x0F))) ∧
    (∀ r : Bytes, r.length ≠ 4 → r.length ≠ 7 → parseReply r = none) ∧
    (∀ r : Bytes, r[0]? ≠ some 0x90 → parseReply r = none) ∧
    (∀ r : Bytes, r[1]? ≠ some 0x50 → parseReply r = none) ∧
    (∀ replies : List (String × Option Bytes), replies ≠ [] →
        getCameraParamsSync replies
          = some (replies.map (fun nr => (nr.1, syncGetEntry nr.2)))) ∧
    (∀ replies : List (String × Option Bytes),
        (getCameraParamsControlled replies).getD []
          = replies.filterMap (fun nr =>
              (nr.2.bind parseReply).map (fun v => (nr.1, toString v)))) := by
  refine ⟨?_, ?_, ?_, ?_, ?_, ?_, ?_⟩
  · intro v t; rfl
  · intro p q r s t; rfl
  · intro r h4 h7
    simp [parseReply, h4, h7]
  · intro r h0
    unfold parseReply
    rw [if_neg (by rintro ⟨-, h, -⟩; exact h0 h)]
  · intro r h1
    unfold parseReply
    rw [if_neg (by rintro ⟨-, -, h⟩; exact h1 h)]
  · intro replies hne
    unfold getCameraParamsSync
    rw [foldl_append_map (fun nr => (nr.1, syncGetEntry nr.2)) replies []]
    rw [List.nil_append]
    rw [if_neg (by simp [hne])]
  · intro replies
    unfold getCameraParamsControlled
    have hstep :
        (fun (acc : List (String × String)) (nr : String × Option Bytes) =>
            match nr.2 with
            | some r =>
                match parseReply r with
                | some v => acc ++ [(nr.1, toString v)]
                | none => acc
            | none => acc)
          = (fun acc nr =>
              match (nr.2.bind parseReply).map
                  (fun v => (nr.1, toString v)) with
              | some y => acc ++ [y]
              | none => acc) := by
      funext acc nr
      rcases nr with ⟨n, ro⟩
      cases ro with
      | none => rfl
      | some r =>
          cases hpr : parseReply r <;> simp [hpr]
    dsimp only
    rw [hstep]
    rw [controlled_foldl_eq replies []]
    rw [List.nil_append]
    cases hfm : replies.filterMap
        (fun nr => (nr.2.bind parseReply).map (fun v => (nr.1, toString v))) with
    | nil => rfl
    | cons y ys => rfl

/-- C5 witness (the spec's own decode examples). -/
theorem reply_parsing_shapes_witness :
    parseReply [0x90, 0x50, 0x0A, 0xFF] = some 10 ∧
    parseReply [0x90, 0x50, 0x01, 0x02, 0x03, 0x04, 0xFF] = some 4660 ∧
    parseReply [0x90, 0x41, 0xFF] = none ∧
    getCameraParamsSync [("A", some [0x90, 0x50, 0x0A, 0xFF]), ("B", none)]
        = some [("A", "10"), ("B", "0")] := by
  refine ⟨reply_parsing_shapes.1 0x0A 0xFF, ?_, ?_, ?_⟩
  · exact reply_parsing_shapes.2.1 0x01 0x02 0x03 0x04 0xFF
  · exact reply_parsing_shapes.2.2.1 [0x90, 0x41, 0xFF] (by decide) (by decide)
  · exact reply_parsing_shapes.2.2.2.2.2.1
      [("A", some [0x90, 0x50, 0x0A, 0xFF]), ("B", none)] (by simp)

/-! ## Partial-success policy theorems -/

theorem sync_fold_success_count (params : List ParamEnv) :
    ∀ acc : Nat × Nat,
      (params.foldl
        (fun (acc : Nat × Nat) p =>
          (acc.1 + (if syncParamSuccess p then 1 else 0),
           acc.2 + syncParamPacketsSent p)) acc).1
        = acc.1 + params.countP (fun p => syncParamSuccess p) := by
  induction params with
  | nil => intro acc; simp
  | cons p ps ih =>
      intro acc
      rw [List.foldl_cons, ih, List.countP_cons]
      cases hp : syncParamSuccess p
      all_goals simp [hp]
      all_goals omega

theorem syncStats_success_count (params : List ParamEnv) :
    (syncStats params).1 = params.countP (fun p => syncParamSuccess p) := by
  unfold syncStats
  rw [sync_fold_success_count params (0, 0)]
  simp

theorem retrySequential_fold_count (ps : List CtrlParam) :
    ∀ acc : List Ev × Nat,
      (ps.foldl
        (fun (acc : List Ev × Nat) p =>
          let tr := acc.1 ++ [Ev.sleep .sequentialPacing, Ev.execRetry p.name]
          if p.retryOutcome then (tr, acc.2 + 1)
          else (tr ++ [Ev.sleep .retryDelay], acc.2)) acc).2
        = acc.2 + (ps.filter (fun p => p.retryOutcome)).length := by
  induction ps with
  | nil => intro acc; simp
  | cons p ps ih =>
      intro acc
      rw [List.foldl_cons, List.filter_cons]
      cases hp : p.retryOutcome
      all_goals simp only [hp, Bool.false_eq_true, if_false, if_true]
      all_goals rw [ih]
      all_goals simp
      all_goals omega

theorem retrySequential_count (ps : List CtrlParam) :
    (retrySequential ps).2 = (ps.filter (fun p => p.retryOutcome)).length := by
  unfold retrySequential
  rw [retrySequential_fold_count ps ([], 0)]
  simp

theorem setCtrl_eq_of_tasks_empty (cfg : CtrlConfig) (st : CtrlState)
    (params : List CtrlParam) (h1 : params ≠ [])
    (h2 : (ctrlTasks params).isEmpty = true) :
    setCameraParamsControlled cfg st params = (false, st, ctrlPre cfg) := by
  unfold setCameraParamsControlled
  rw [if_neg (by simp [h1]), if_pos h2]

theorem setCtrl_eq_retry (cfg : CtrlConfig) (st : CtrlState)
    (params : List CtrlParam) (h1 : params ≠ [])
    (h2 : ¬(ctrlTasks params).isEmpty = true)
    (hR : ctrlRetryHappens cfg st params = true) :
    setCameraParamsControlled cfg st params
      = (decide (ctrlSuccess1 params +
            (retrySequential (ctrlFailed params)).2 > 0),
         { currentLimit := max 1 (st.currentLimit / 2),
           successCount := st.successCount + ctrlSuccess1 params,
           failureCount := st.failureCount + ctrlFailure1 params },
         ctrlPre cfg ++ ctrlConcTrace st params ++
           (retrySequential (ctrlFailed params)).1) := by
  unfold setCameraParamsControlled
  rw [if_neg (by simp [h1]), if_neg h2, if_pos hR]

theorem setCtrl_eq_no_retry (cfg : CtrlConfig) (st : CtrlState)
    (params : List CtrlParam) (h1 : params ≠ [])
    (h2 : ¬(ctrlTasks params).isEmpty = true)
    (hR : ¬ctrlRetryHappens cfg st params = true) :
    setCameraParamsControlled cfg st params
      = (decide (ctrlSuccess1 params > 0),
         { currentLimit := st.currentLimit,
           successCount := st.successCount + ctrlSuccess1 params,
           failureCount := st.failureCount + ctrlFailure1 params },
         ctrlPre cfg ++ ctrlConcTrace st params) := by
  unfold setCameraParamsControlled
  rw [if_neg (by simp [h1]), if_neg h2, if_neg hR]

theorem ctrlSuccess1_pos_iff (params : List CtrlParam) :
    0 < ctrlSuccess1 params ↔
      ∃ p ∈ params, p.known = true ∧ p.firstOutcome = true := by
  unfold ctrlSuccess1 ctrlTasks
  rw [← List.countP_eq_length_filter]
  rw [List.countP_pos_iff]
  constructor
  · rintro ⟨p, hp, hf⟩
    rcases List.mem_filter.mp hp with ⟨hpp, hk⟩
    exact ⟨p, hpp, hk, hf⟩
  · rintro ⟨p, hp, hk, hf⟩
    exact ⟨p, List.mem_filter.mpr ⟨hp, hk⟩, hf⟩

theorem retry_success_pos_iff (params : List CtrlParam) :
    0 < (retrySequential (ctrlFailed params)).2 ↔
      ∃ p ∈ params, p.known = true ∧ p.firstOutcome = false ∧
        p.retryOutcome = true := by
  rw [retrySequential_count]
  unfold ctrlFailed ctrlTasks
  rw [← List.countP_eq_length_filter, List.countP_pos_iff]
  constructor
  · rintro ⟨p, hp, hr⟩
    rcases List.mem_filter.mp hp with ⟨hpt, hnf⟩
    rcases List.mem_filter.mp hpt with ⟨hpp, hk⟩
    exact ⟨p, hpp, hk, by simpa using hnf, hr⟩
  · rintro ⟨p, hp, hk, hnf, hr⟩
    refine ⟨p, List.mem_filter.mpr ⟨List.mem_filter.mpr ⟨hp, hk⟩, ?_⟩, hr⟩
    simp [hnf]

/-- C2: a non-empty batch set reports overall success exactly when at least
one parameter of the batch was set successfully (sync path: a successful
send with completion; controlled async path: concurrent task success or a
sequential-retry success) - in particular a partially failing batch still
reports success and only a batch with zero successes reports failure. -/
theorem batch_set_partial_success_policy :
    (∀ params : List ParamEnv, params ≠ [] →
        ((setCameraParams params).1 = true ↔
          ∃ p ∈ params, syncParamSuccess p = true)) ∧
    (∀ (cfg : CtrlConfig) (st : CtrlState) (params : List CtrlParam),
        params ≠ [] →
        ((setCameraParamsControlled cfg st params).1 = true ↔
          ∃ p ∈ params, ctrlParamSucceeded cfg st params p = true)) := by
  constructor
  · intro params hne
    have hres : (setCameraParams params).1 = decide ((syncStats params).1 > 0) := by
      unfold setCameraParams
      rw [if_neg (by simp [hne])]
    rw [hres, syncStats_success_count params]
    simp only [decide_eq_true_eq]
    exact List.countP_pos_iff
  · intro cfg st params hne
    by_cases h2 : (ctrlTasks params).isEmpty = true
    · rw [setCtrl_eq_of_tasks_empty cfg st params hne h2]
      simp only [Bool.false_eq_true, false_iff]
      rintro ⟨p, hp, hsucc⟩
      have hknown : p.known = false := by
        have hnil : ctrlTasks params = [] := List.isEmpty_iff.mp h2
        have hfil := List.filter_eq_nil_iff.mp (by
          unfold ctrlTasks at hnil
          exact hnil)
        simpa using hfil p hp
      rw [ctrlParamSucceeded, hknown] at hsucc
      simp at hsucc
    · cases hR : ctrlRetryHappens cfg st params with
      | true =>
          rw [setCtrl_eq_retry cfg st params hne h2 hR]
          simp only [decide_eq_true_eq]
          constructor
          · intro hpos
            have hcases : 0 < ctrlSuccess1 params ∨
                0 < (retrySequential (ctrlFailed params)).2 := by omega
            rcases hcases with hs | hr
            · rcases (ctrlSuccess1_pos_iff params).mp hs with ⟨p, hp, hk, hf⟩
              exact ⟨p, hp, by simp [ctrlParamSucceeded, hk, hf]⟩
            · rcases (retry_success_pos_iff params).mp hr with ⟨p, hp, hk, hnf, hrt⟩
              exact ⟨p, hp,
                by simp [ctrlParamSucceeded, hk, hnf, hrt, hR]⟩
          · rintro ⟨p, hp, hsucc⟩
            rw [ctrlParamSucceeded, hR] at hsucc
            simp only [Bool.true_and, Bool.and_eq_true, Bool.or_eq_true,
              Bool.not_eq_true'] at hsucc
            rcases hsucc with ⟨hk, hf | ⟨hnf, hrt⟩⟩
            · have := (ctrlSuccess1_pos_iff params).mpr ⟨p, hp, hk, hf⟩
              omega
            · have := (retry_success_pos_iff params).mpr ⟨p, hp, hk, hnf, hrt⟩
              omega
      | false =>
          rw [setCtrl_eq_no_retry cfg st params hne h2 (by simp [hR])]
          simp only [decide_eq_true_eq]
          constructor
          · intro hpos
            rcases (ctrlSuccess1_pos_iff params).mp hpos with ⟨p, hp, hk, hf⟩
            exact ⟨p, hp, by simp [ctrlParamSucceeded, hk, hf]⟩
          · rintro ⟨p, hp, hsucc⟩
            rw [ctrlParamSucceeded, hR] at hsucc
            simp only [Bool.false_and, Bool.and_false, Bool.or_false,
              Bool.false_eq_true, Bool.and_eq_true] at hsucc
            refine (ctrlSuccess1_pos_iff params).mpr ⟨p, hp, hsucc.1, hsucc.2⟩

/-- C2 witness: a sync batch of three parameters with exactly one success
reports overall success; a controlled batch with zero successes reports
failure. -/
theorem batch_set_partial_success_policy_witness :
    (setCameraParams
      [⟨"ExposureIris", true, some 5,
          [some [0, 0, 0, 0, 0, 0, 0, 0, 0x90, 0x51, 0xFF]], none⟩,
       ⟨"ExposureGain", true, some 3, [none, none, none], none⟩,
       ⟨"Bogus", false, some 1, [], none⟩]).1 = true ∧
    (setCameraParamsControlled ⟨true, true⟩ ⟨5, 0, 0⟩
      [⟨"ExposureGain", true, false, false⟩]).1 = false := by
  constructor
  · exact (batch_set_partial_success_policy.1 _ (by decide)).mpr
      ⟨⟨"ExposureIris", true, some 5,
          [some [0, 0, 0, 0, 0, 0, 0, 0, 0x90, 0x51, 0xFF]], none⟩,
        by decide, by decide⟩
  · rw [← Bool.not_eq_true,
      batch_set_partial_success_policy.2 ⟨true, true⟩ ⟨5, 0, 0⟩ _ (by decide)]
    decide

/-! ## Adaptive-concurrency (sequential fallback) theorems -/

theorem retrySequential_fold_trace (ps : List CtrlParam) :
    ∀ acc : List Ev × Nat,
      (ps.foldl
        (fun (acc : List Ev × Nat) p =>
          let tr := acc.1 ++ [Ev.sleep .sequentialPacing, Ev.execRetry p.name]
          if p.retryOutcome then (tr, acc.2 + 1)
          else (tr ++ [Ev.sleep .retryDelay], acc.2)) acc).1
        = acc.1 ++ (ps.map (fun p =>
            [Ev.sleep .sequentialPacing, Ev.execRetry p.name] ++
              (if p.retryOutcome then [] else [Ev.sleep .retryDelay]))).flatten := by
  induction ps with
  | nil => intro acc; simp
  | cons p ps ih =>
      intro acc
      rw [List.foldl_cons]
      cases hp : p.retryOutcome
      all_goals simp only [hp, Bool.false_eq_true, if_false, if_true]
      all_goals rw [ih]
      all_goals simp [hp]

theorem retrySequential_trace (ps : List CtrlParam) :
    (retrySequential ps).1
      = (ps.map (fun p =>
          [Ev.sleep .sequentialPacing, Ev.execRetry p.name] ++
            (if p.retryOutcome then [] else [Ev.sleep .retryDelay]))).flatten := by
  unfold retrySequential
  rw [retrySequential_fold_trace ps ([], 0)]
  simp

theorem filterMap_retryNameOf_opSegment (L : Nat) (n : String) :
    (opSegment L n).filterMap retryNameOf = [] := by
  unfold opSegment
  by_cases h : L > 1 <;> simp [h, retryNameOf]

theorem filterMap_retryNameOf_concTrace (st : CtrlState)
    (params : List CtrlParam) :
    (ctrlConcTrace st params).filterMap retryNameOf = [] := by
  unfold ctrlConcTrace
  generalize ctrlTasks params = ts
  induction ts with
  | nil => rfl
  | cons t ts ih =>
      simp only [List.map_cons, List.flatten_cons, List.filterMap_append,
        filterMap_retryNameOf_opSegment, ih]
      rfl

theorem filterMap_retryNameOf_pre (cfg : CtrlConfig) :
    (ctrlPre cfg).filterMap retryNameOf = [] := by
  unfold ctrlPre
  cases h : cfg.rateLimitSet <;> simp [h, retryNameOf]

theorem filterMap_retryNameOf_retryTrace (ps : List CtrlParam) :
    (retrySequential ps).1.filterMap retryNameOf
      = ps.map (fun p => p.name) := by
  rw [retrySequential_trace]
  induction ps with
  | nil => rfl
  | cons p ps ih =>
      simp only [List.map_cons, List.flatten_cons, List.filterMap_append, ih]
      cases hp : p.retryOutcome <;> simp [hp, retryNameOf]

/-- C3 counterexample: with `fallback_to_sequential` disabled in the
configuration, a controlled batch whose failure ratio is 1 (two known
parameters, both failing) while the limit is 4 leaves the concurrency
limit at 4 - not `max 1 (4 // 2) = 2` - and retries nothing, so the claim
as stated (unconditioned on that configuration flag) is false. -/
theorem adaptive_fallback_counterexample :
    2 * ctrlFailure1 [⟨"a", true, false, true⟩, ⟨"b", true, false, true⟩]
        > ([⟨"a", true, false, true⟩, ⟨"b", true, false, true⟩] : List CtrlParam).length ∧
    (4 : Nat) > 1 ∧
    (setCameraParamsControlled ⟨false, false⟩ ⟨4, 0, 0⟩
        [⟨"a", true, false, true⟩, ⟨"b", true, false, true⟩]).2.1.currentLimit = 4 ∧
    ¬((setCameraParamsControlled ⟨false, false⟩ ⟨4, 0, 0⟩
        [⟨"a", true, false, true⟩, ⟨"b", true, false, true⟩]).2.1.currentLimit
          = max 1 (4 / 2)) ∧
    (setCameraParamsControlled ⟨false, false⟩ ⟨4, 0, 0⟩
        [⟨"a", true, false, true⟩, ⟨"b", true, false, true⟩]).2.2.filterMap
          retryNameOf = [] := by
  refine ⟨by decide, by decide, by decide, by decide, by decide⟩

/-- C3 (amended): provided `fallback_to_sequential` is enabled (its
default), a controlled batch whose failure ratio exceeds 0.5 while the
current limit exceeds 1 halves the limit (floor 1) and re-issues exactly
the batch's failed parameters, in order, sequentially - the trace of the
sequential pass sleeps the sequential pacing before each retried item and
additionally sleeps the retry delay after each sequential failure - and
the successes of the pass are added to the batch's success count for the
overall result. -/
theorem adaptive_fallback_behaviour (cfg : CtrlConfig) (st : CtrlState)
    (params : List CtrlParam)
    (hfb : cfg.fallbackToSequential = true)
    (hfail : 2 * ctrlFailure1 params > params.length)
    (hlim : st.currentLimit > 1) :
    (setCameraParamsControlled cfg st params).2.1.currentLimit
        = max 1 (st.currentLimit / 2) ∧
    (setCameraParamsControlled cfg st params).2.2.filterMap retryNameOf
        = (ctrlFailed params).map (fun p => p.name) ∧
    (retrySequential (ctrlFailed params)).1
        = ((ctrlFailed params).map (fun p =>
            [Ev.sleep .sequentialPacing, Ev.execRetry p.name] ++
              (if p.retryOutcome then [] else [Ev.sleep .retryDelay]))).flatten ∧
    (setCameraParamsControlled cfg st params).1
        = decide (ctrlSuccess1 params +
            (retrySequential (ctrlFailed params)).2 > 0) ∧
    (retrySequential (ctrlFailed params)).2
        = ((ctrlFailed params).filter (fun p => p.retryOutcome)).length := by
  have hf1 : 1 ≤ ctrlFailure1 params := by omega
  have hlen : 1 ≤ (ctrlTasks params).length := by
    unfold ctrlFailure1 at hf1
    omega
  have h2 : ¬(ctrlTasks params).isEmpty = true := by
    intro h
    rw [List.isEmpty_iff.mp h] at hlen
    simp at hlen
  have hne : params ≠ [] := by
    intro h
    subst h
    simp [ctrlTasks] at hlen
  have hR : ctrlRetryHappens cfg st params = true := by
    unfold ctrlRetryHappens
    simp [hfb, hfail, hlim]
  rw [setCtrl_eq_retry cfg st params hne h2 hR]
  refine ⟨rfl, ?_, retrySequential_trace (ctrlFailed params), rfl,
    retrySequential_count (ctrlFailed params)⟩
  simp only [List.filterMap_append, filterMap_retryNameOf_pre,
    filterMap_retryNameOf_concTrace, filterMap_retryNameOf_retryTrace,
    List.nil_append]

/-- C3 witness. -/
theorem adaptive_fallback_behaviour_witness :
    (setCameraParamsControlled ⟨false, true⟩ ⟨4, 0, 0⟩
        [⟨"a", true, false, true⟩, ⟨"b", true, true, true⟩,
         ⟨"c", true, false, false⟩]).2.1.currentLimit = max 1 (4 / 2) ∧
    (setCameraParamsControlled ⟨false, true⟩ ⟨4, 0, 0⟩
        [⟨"a", true, false, true⟩, ⟨"b", true, true, true⟩,
         ⟨"c", true, false, false⟩]).2.2.filterMap retryNameOf
      = ["a", "c"] := by
  have h := adaptive_fallback_behaviour ⟨false, true⟩ ⟨4, 0, 0⟩
    [⟨"a", true, false, true⟩, ⟨"b", true, true, true⟩,
     ⟨"c", true, false, false⟩] (by decide) (by decide) (by decide)
  exact ⟨h.1, by rw [h.2.1]; decide⟩

/-! ## Concurrency-gating theorems -/

theorem append_eq_append_cons {α : Type} (x : α) :
    ∀ (a b l1 l2 : List α), a ++ b = l1 ++ x :: l2 →
      (∃ u, a = l1 ++ x :: u) ∨ (∃ v, l1 = a ++ v ∧ b = v ++ x :: l2) := by
  intro a
  induction a with
  | nil =>
      intro b l1 l2 h
      right
      exact ⟨l1, by simp, by simpa using h⟩
  | cons hd tl ih =>
      intro b l1 l2 h
      cases l1 with
      | nil =>
          left
          simp only [List.cons_append, List.nil_append] at h
          obtain ⟨h1, h2⟩ := List.cons.injEq .. ▸ h
          exact ⟨tl, by simp [h1]⟩
      | cons e1 t1 =>
          simp only [List.cons_append] at h
          obtain ⟨h1, h2⟩ := List.cons.injEq .. ▸ h
          rcases ih b t1 l2 h2 with ⟨u, hu⟩ | ⟨v, hv1, hv2⟩
          · left
            exact ⟨u, by simp [h1, hu]⟩
          · right
            exact ⟨v, by simp [h1, hv1], hv2⟩

theorem head_mem_left {α : Type} (a x : α) (rest l1 l2 : List α)
    (h : a :: rest = l1 ++ x :: l2) (hax : a ≠ x) : a ∈ l1 := by
  cases l1 with
  | nil =>
      simp only [List.nil_append] at h
      obtain ⟨h1, -⟩ := List.cons.injEq .. ▸ h
      exact absurd h1 hax
  | cons b t1 =>
      simp only [List.cons_append] at h
      obtain ⟨h1, -⟩ := List.cons.injEq .. ▸ h
      rw [h1]
      exact List.mem_cons_self b t1

theorem opSegment_exec_split (L : Nat) (n m : String) (l1 l2 : List Ev)
    (h : opSegment L n = l1 ++ Ev.execConc m :: l2) :
    Ev.slotAcquire ∈ l1 := by
  have hseg : opSegment L n
      = Ev.slotAcquire :: ((if L > 1 then [Ev.sleep .concurrentPacing] else [])
          ++ [Ev.execConc n, Ev.slotRelease]) := by
    unfold opSegment
    rfl
  rw [hseg] at h
  exact head_mem_left _ _ _ _ _ h (by simp)

theorem flatten_exec_split (L : Nat) (ts : List CtrlParam) :
    ∀ (l1 l2 : List Ev) (m : String),
      (ts.map (fun p => opSegment L p.name)).flatten
          = l1 ++ Ev.execConc m :: l2 →
        Ev.slotAcquire ∈ l1 := by
  induction ts with
  | nil =>
      intro l1 l2 m h
      simp at h
  | cons t ts ih =>
      intro l1 l2 m h
      rw [List.map_cons, List.flatten_cons] at h
      rcases append_eq_append_cons _ _ _ _ _ h with ⟨u, hu⟩ | ⟨v, hv1, hv2⟩
      · exact opSegment_exec_split L t.name m l1 u hu
      · rw [hv1]
        apply List.mem_append_left
        unfold opSegment
        simp
theorem execConc_not_mem_retryTrace (ps : List CtrlParam) (m : String) :
    Ev.execConc m ∉ (retrySequential ps).1 := by
  rw [retrySequential_trace]
  induction ps with
  | nil => simp
  | cons p ps ih =>
      simp only [List.map_cons, List.flatten_cons, List.mem_append]
      rintro (hmem | hmem)
      · cases hp : p.retryOutcome <;> simp [hp] at hmem
      · exact ih hmem

theorem execConc_not_mem_pre (cfg : CtrlConfig) (m : String) :
    Ev.execConc m ∉ ctrlPre cfg := by
  unfold ctrlPre
  cases h : cfg.rateLimitSet <;> simp

theorem countTokenAcquires_append (a b : List Ev) :
    countTokenAcquires (a ++ b) = countTokenAcquires a + countTokenAcquires b := by
  unfold countTokenAcquires
  rw [List.countP_append]

theorem countTokenAcquires_opSegment (L : Nat) (n : String) :
    countTokenAcquires (opSegment L n) = 0 := by
  unfold countTokenAcquires opSegment
  by_cases h : L > 1 <;> simp [h, List.countP_cons]

theorem countTokenAcquires_concTrace (st : CtrlState)
    (params : List CtrlParam) :
    countTokenAcquires (ctrlConcTrace st params) = 0 := by
  unfold ctrlConcTrace
  generalize ctrlTasks params = ts
  induction ts with
  | nil => rfl
  | cons t ts ih =>
      rw [List.map_cons, List.flatten_cons, countTokenAcquires_append,
        countTokenAcquires_opSegment, ih]

theorem countTokenAcquires_retryTrace (ps : List CtrlParam) :
    countTokenAcquires (retrySequential ps).1 = 0 := by
  rw [retrySequential_trace]
  induction ps with
  | nil => rfl
  | cons p ps ih =>
      rw [List.map_cons, List.flatten_cons, countTokenAcquires_append, ih]
      cases hp : p.retryOutcome <;>
        simp [hp, countTokenAcquires, List.countP_cons]

theorem countSlotAcquires_retryTrace (ps : List CtrlParam) :
    (retrySequential ps).1.countP (fun e => e = Ev.slotAcquire) = 0 := by
  rw [retrySequential_trace]
  induction ps with
  | nil => rfl
  | cons p ps ih =>
      rw [List.map_cons, List.flatten_cons, List.countP_append, ih]
      cases hp : p.retryOutcome <;> simp [hp, List.countP_cons]

theorem countTokenAcquires_pre (cfg : CtrlConfig)
    (h : cfg.rateLimitSet = true) : countTokenAcquires (ctrlPre cfg) = 1 := by
  unfold ctrlPre countTokenAcquires
  simp [h, List.countP_cons]

/-- C8 counterexample: with set-rate-limiting enabled, a controlled batch
of two known parameters (N = 2 operations, both executed concurrently)
consumes exactly one rate-limiter token, not one per operation: the token
is acquired once for the whole batch, before the tasks are created. -/
theorem rate_limiter_token_per_batch_counterexample :
    countConcExecs ((setCameraParamsControlled ⟨true, false⟩ ⟨1, 0, 0⟩
        [⟨"a", true, true, true⟩, ⟨"b", true, true, true⟩]).2.2) = 2 ∧
    countTokenAcquires ((setCameraParamsControlled ⟨true, false⟩ ⟨1, 0, 0⟩
        [⟨"a", true, true, true⟩, ⟨"b", true, true, true⟩]).2.2) = 1 ∧
    (1 : Nat) ≠ 2 := by
  refine ⟨by decide, by decide, by decide⟩

/-- C8 (amended): in a controlled batch set with set-rate-limiting
enabled, the Rate Limiter grants exactly one token per batch call — not
one per parameter operation — acquired before any operation runs; each
concurrently dispatched parameter operation executes only after acquiring
a concurrency slot (and after the batch token when rate limiting is on),
while the sequential-retry pass re-issues operations without acquiring any
slot or token. -/
theorem controlled_gating_behaviour :
    (∀ (cfg : CtrlConfig) (st : CtrlState) (params : List CtrlParam),
        params ≠ [] → cfg.rateLimitSet = true →
        countTokenAcquires ((setCameraParamsControlled cfg st params).2.2) = 1) ∧
    (∀ ps : List CtrlParam,
        countTokenAcquires (retrySequential ps).1 = 0 ∧
        (retrySequential ps).1.countP (fun e => e = Ev.slotAcquire) = 0) ∧
    (∀ (cfg : CtrlConfig) (st : CtrlState) (params : List CtrlParam)
        (l1 l2 : List Ev) (n : String),
        (setCameraParamsControlled cfg st params).2.2
            = l1 ++ Ev.execConc n :: l2 →
        Ev.slotAcquire ∈ l1 ∧
          (cfg.rateLimitSet = true → Ev.tokenAcquire ∈ l1)) := by
  refine ⟨?_, ?_, ?_⟩
  · intro cfg st params hne hrl
    by_cases h2 : (ctrlTasks params).isEmpty = true
    · rw [setCtrl_eq_of_tasks_empty cfg st params hne h2]
      exact countTokenAcquires_pre cfg hrl
    · cases hR : ctrlRetryHappens cfg st params with
      | true =>
          rw [setCtrl_eq_retry cfg st params hne h2 hR]
          simp only [countTokenAcquires_append, countTokenAcquires_pre cfg hrl,
            countTokenAcquires_concTrace, countTokenAcquires_retryTrace]
      | false =>
          rw [setCtrl_eq_no_retry cfg st params hne h2 (by simp [hR])]
          simp only [countTokenAcquires_append, countTokenAcquires_pre cfg hrl,
            countTokenAcquires_concTrace]
  · intro ps
    exact ⟨countTokenAcquires_retryTrace ps, countSlotAcquires_retryTrace ps⟩
  · intro cfg st params l1 l2 n h
    by_cases hne : params = []
    · subst hne
      simp [setCameraParamsControlled] at h
    by_cases h2 : (ctrlTasks params).isEmpty = true
    · rw [setCtrl_eq_of_tasks_empty cfg st params hne h2] at h
      have h4 : ctrlPre cfg = l1 ++ Ev.execConc n :: l2 := h
      exact absurd (h4 ▸ List.mem_append_right l1 (List.mem_cons_self _ _))
        (execConc_not_mem_pre cfg n)
    have hmain : ∀ (r : List Ev),
        (∀ m : String, Ev.execConc m ∉ r) →
        ctrlPre cfg ++ (ctrlConcTrace st params ++ r) = l1 ++ Ev.execConc n :: l2 →
        Ev.slotAcquire ∈ l1 ∧
          (cfg.rateLimitSet = true → Ev.tokenAcquire ∈ l1) := by
      intro r hr h
      rcases append_eq_append_cons _ _ _ _ _ h with ⟨u, hu⟩ | ⟨v, hv1, hv2⟩
      · exfalso
        exact execConc_not_mem_pre cfg n (hu ▸ List.mem_append_right l1
          (List.mem_cons_self _ _))
      · rcases append_eq_append_cons _ _ _ _ _ hv2 with ⟨u2, hu2⟩ | ⟨w, hw1, hw2⟩
        · have hslot : Ev.slotAcquire ∈ v := by
            apply flatten_exec_split st.currentLimit (ctrlTasks params) v u2 n
            unfold ctrlConcTrace at hu2
            exact hu2
          constructor
          · rw [hv1]
            exact List.mem_append_right _ hslot
          · intro hrl
            rw [hv1]
            apply List.mem_append_left
            unfold ctrlPre
            simp [hrl]
        · exfalso
          exact hr n (hw2 ▸ List.mem_append_right w (List.mem_cons_self _ _))
    cases hR : ctrlRetryHappens cfg st params with
    | true =>
        rw [setCtrl_eq_retry cfg st params hne h2 hR] at h
        have h4 : ctrlPre cfg ++ (ctrlConcTrace st params ++
            (retrySequential (ctrlFailed params)).1) =
            l1 ++ Ev.execConc n :: l2 := by
          rw [← List.append_assoc]
          exact h
        exact hmain _ (fun m => execConc_not_mem_retryTrace _ m) h4
    | false =>
        rw [setCtrl_eq_no_retry cfg st params hne h2 (by simp [hR])] at h
        have h3 : ctrlPre cfg ++ (ctrlConcTrace st params ++ []) =
            l1 ++ Ev.execConc n :: l2 := by
          rw [List.append_nil]
          exact h
        exact hmain [] (fun m => by simp) h3

/-- C8 witness. -/
theorem controlled_gating_behaviour_witness :
    countTokenAcquires ((setCameraParamsControlled ⟨true, false⟩ ⟨1, 0, 0⟩
        [⟨"a", true, true, true⟩]).2.2) = 1 ∧
    (Ev.slotAcquire ∈ [Ev.tokenAcquire, Ev.slotAcquire] ∧
      ((⟨true, false⟩ : CtrlConfig).rateLimitSet = true →
        Ev.tokenAcquire ∈ [Ev.tokenAcquire, Ev.slotAcquire])) := by
  refine ⟨controlled_gating_behaviour.1 ⟨true, false⟩ ⟨1, 0, 0⟩
      [⟨"a", true, true, true⟩] (by decide) rfl, ?_⟩
  exact controlled_gating_behaviour.2.2 ⟨true, false⟩ ⟨1, 0, 0⟩
    [⟨"a", true, true, true⟩] [Ev.tokenAcquire, Ev.slotAcquire]
    [Ev.slotRelease] "a" (by decide)

end CameraProtocol
